import Mathlib

/-!
Verification of the Entity Reconciliation Engine
(`src/reconciliation-service/app/zingg_client.py`) against its
natural-language specification.

The Python code works on `pandas` DataFrames built from lists of
string-keyed dictionaries.  We embed this shallowly:

* an input record (`Record`) is an association list `String × String`
  (a Python dict of string values; keys are unique, order is
  insertion order);
* a DataFrame row (`Dict`) is an association list `String × Val`
  whose keys are exactly the DataFrame columns (the union of the keys
  of all input records); a cell holds `Val := Option String`, where
  `none` models a pandas `NaN` cell (the record did not have that
  column).  `str(nan)` in Python is the string "nan", `bool(nan)` is
  `True`, and `nan` compares unequal to both `None` and the empty
  string — these facts are reflected in `pyStr`, `truthy` and the
  merge conditions below;
* a DataFrame is `List (Nat × Dict)`: each row carries its pandas
  index *label*.  `df.iloc[i]` is positional access (`List.get?` on
  the list), while `df.iterrows()` yields `(label, row)` pairs —
  the distinction matters inside `_merge_matched_entities`;
* strings being normalized (`.strip().lower()`) are handled as
  `List Char`, with ASCII-level models of Python `str.strip` and
  `str.lower` (the inputs considered are ASCII);
* `fuzzywuzzy`'s `fuzz.ratio` (with its Levenshtein backend) is
  `round(100 * (|s1| + |s2| - dist) / (|s1| + |s2|))` where `dist`
  is the edit distance with delete/insert cost 1 and substitute
  cost 2, and `round` is Python's banker's rounding;
* rationals stand for Python floats (all arithmetic in the engine is
  exact on the inputs considered);
* process-wide effects that do not influence control flow (UUID
  generation, wall-clock timing, logging) are not modelled; the
  job-history entry keeps the count and status fields.
-/

namespace Reco

/-- A cell value of a DataFrame row: `none` models a pandas `NaN`
(the source record did not supply this column). -/
abbrev Val := Option String

/-- A DataFrame row, or the Python dict obtained from one via
`to_dict()`: an association list whose keys are exactly the
DataFrame columns. -/
abbrev Dict := List (String × Val)

/-- A raw input record: a Python dict of strings, as submitted in the
`data` list of a reconciliation request. -/
abbrev Record := List (String × String)

/-- Python `str(value)` on a cell: a `NaN` cell prints as "nan". -/
def pyStr : Val → String
  | some s => s
  | none => "nan"

/-- Python truthiness of a cell value: the empty string is falsy;
every other string — and `nan` — is truthy. -/
def truthy : Val → Bool
  | some s => s ≠ ""
  | none => true

/-- ASCII whitespace, as stripped by Python `str.strip()`. -/
def isWS (c : Char) : Bool :=
  c = ' ' || c = '\t' || c = '\n' || c = '\r' || c = '\x0b' || c = '\x0c'

/-- Python `str.strip()` on a character list. -/
def trimL (l : List Char) : List Char :=
  ((l.dropWhile isWS).reverse.dropWhile isWS).reverse

/-- Python `str.lower()` on a character list (ASCII fragment). -/
def lowerL (l : List Char) : List Char := l.map Char.toLower

/-- `str(record[field]).strip().lower()` from
`_calculate_record_similarity` (zingg_client.py lines 174-175). -/
def normVal (v : Val) : List Char := lowerL (trimL (pyStr v).toList)

/-- Cost structure of the Levenshtein backend of `fuzz.ratio`:
delete and insert cost 1, substitution costs 2. -/
def fuzzCost : Levenshtein.Cost Char Char Nat where
  delete _ := 1
  insert _ := 1
  substitute a b := if a = b then 0 else 2

/-- Python `round` (banker's rounding, round-half-to-even) of the
nonnegative fraction `n / d`, for `d > 0`. -/
def pyRound (n d : Nat) : Nat :=
  let q := n / d
  let r := n % d
  if 2 * r < d then q
  else if d < 2 * r then q + 1
  else if q % 2 = 0 then q else q + 1

/-- `fuzz.ratio(s1, s2)`: an integer similarity in 0..100,
`round(100 * (lensum - dist) / lensum)` with the cost-2-substitution
Levenshtein distance (the `python-Levenshtein` backend of fuzzywuzzy).
Two empty strings give ratio 100 (never reached by the caller, which
filters empty values out). -/
def fuzzRatio (a b : List Char) : Nat :=
  let lensum := a.length + b.length
  if lensum = 0 then 100
  else pyRound (100 * (lensum - levenshtein fuzzCost a b)) lensum

/-- `_calculate_record_similarity` (zingg_client.py lines 162-185):
for each configured field, if the field is a column of both rows
(`field in record1` on a pandas Series tests its index, i.e. the
DataFrame columns) and both stringified cell values are non-empty
after trimming and lowercasing, the field contributes
`fuzz.ratio / 100`; the result is the arithmetic mean of the
contributions (`np.mean`), or `0.0` when there are none. -/
def fieldSim (r1 r2 : Dict) (f : String) : Option ℚ :=
  match r1.lookup f, r2.lookup f with
  | some v1, some v2 =>
    let a := normVal v1
    let b := normVal v2
    if a ≠ [] && b ≠ [] then some ((fuzzRatio a b : ℚ) / 100) else none
  | _, _ => none

/-- The similarity aggregate (zingg_client.py lines 170-185): the
arithmetic mean (`np.mean`) of the per-field contributions, or `0.0`
when no field contributes. -/
def calcSim (r1 r2 : Dict) (fields : List String) : ℚ :=
  let sims : List ℚ := fields.filterMap (fieldSim r1 r2)
  if sims.isEmpty then 0 else sims.sum / sims.length

/-- The `matching_config` dict of the service, restricted to the keys
the engine reads: `matching_fields` (default `[]`),
`similarity_fields` (default `[]`), `similarity_threshold`
(default `0.9`). -/
structure MatchConfig where
  matching_fields : List String := []
  similarity_fields : List String := []
  similarity_threshold : ℚ := 9 / 10
deriving Repr

/-- Union of the keys of all records, in first-appearance order:
the columns of `pd.DataFrame(data)`. -/
def dfCols (data : List Record) : List String :=
  data.foldl (fun acc r =>
    r.foldl (fun a kv => if kv.1 ∈ a then a else a ++ [kv.1]) acc) []

/-- The row of a DataFrame for one input record: every column is
present; a column the record lacks holds `NaN` (`none`). -/
def mkRow (cols : List String) (r : Record) : Dict :=
  cols.map fun c => (c, r.lookup c)

/-- `pd.DataFrame(data)`: rows labelled by position. -/
def mkDf (data : List Record) : List (Nat × Dict) :=
  let cols := dfCols data
  data.enum.map fun p => (p.1, mkRow cols p.2)

/-- A match candidate as appended by `_find_entity_matches`
(zingg_client.py lines 151-158). -/
structure Match where
  entity_1_index : Nat
  entity_2_index : Nat
  entity_1_id : Val
  entity_2_id : Val
  similarity_score : ℚ
  matching_fields : List String
deriving Repr

/-- `df.iloc[i].get("id", str(i))`: the value of the `id` column when
the DataFrame has one (possibly `NaN`), else the positional index
rendered as a string. -/
def entityId (i : Nat) (r : Dict) : Val :=
  (r.lookup "id").getD (some (toString i))

/-- The index pairs visited by the nested loops
`for i in range(n): for j in range(i + 1, n)`, in visiting order. -/
def allPairs (n : Nat) : List (Nat × Nat) :=
  (List.range n).flatMap fun i =>
    (List.range' (i + 1) (n - (i + 1))).map fun j => (i, j)

/-- `_find_entity_matches` (zingg_client.py lines 129-160): with an
empty `matching_fields` list the empty match list is returned before
any pair is visited; otherwise every pair `(i, j)`, `i < j`, whose
similarity reaches the threshold yields a match candidate, in loop
order.  (`df.iloc` would raise on an out-of-range index; the loops
only produce in-range ones, so the `none` arm is unreachable.) -/
def pairMatch (df : List (Nat × Dict)) (config : MatchConfig)
    (threshold : ℚ) (p : Nat × Nat) : Option Match :=
  match df.get? p.1, df.get? p.2 with
  | some r1, some r2 =>
    let s := calcSim r1.2 r2.2 config.matching_fields
    if threshold ≤ s then
      some ⟨p.1, p.2, entityId p.1 r1.2, entityId p.2 r2.2, s,
        config.matching_fields⟩
    else none
  | _, _ => none

/-- The pair loop of `_find_entity_matches`: accepted pairs in
visiting order. -/
def findEntityMatches (df : List (Nat × Dict)) (config : MatchConfig)
    (threshold : ℚ) : List Match :=
  if config.matching_fields.isEmpty then []
  else (allPairs df.length).filterMap (pairMatch df config threshold)

/-- `df.drop_duplicates()`: keep the first row of every group of
identical rows (pandas treats `NaN` cells as equal here), preserving
order and index labels. -/
def dropDupRows : List (Nat × Dict) → List Dict → List (Nat × Dict)
  | [], _ => []
  | (l, r) :: rest, seen =>
    if r ∈ seen then dropDupRows rest seen
    else (l, r) :: dropDupRows rest (r :: seen)

/-- Inner loop of the near-duplicate pass
(zingg_client.py lines 114-123): for each `j`, skip it if already
marked, otherwise mark it when the similarity of the pair reaches the
threshold.  `sim` abstracts `_calculate_record_similarity` on the
positions of the working DataFrame. -/
def markInner (sim : Nat → Nat → ℚ) (t : ℚ) (i : Nat) :
    List Nat → List Nat → List Nat
  | [], rem => rem
  | j :: js, rem =>
    if j ∈ rem then markInner sim t i js rem
    else if t ≤ sim i j then markInner sim t i js (j :: rem)
    else markInner sim t i js rem

/-- Outer loop of the near-duplicate pass
(zingg_client.py lines 110-123): skip a marked `i`, otherwise run the
inner loop over `j = i+1, …, n-1`. -/
def markOuter (sim : Nat → Nat → ℚ) (t : ℚ) (n : Nat) :
    List Nat → List Nat → List Nat
  | [], rem => rem
  | i :: rest, rem =>
    if i ∈ rem then markOuter sim t n rest rem
    else markOuter sim t n rest
      (markInner sim t i (List.range' (i + 1) (n - (i + 1))) rem)

/-- Similarity of the rows at positions `i` and `j` of the working
DataFrame (`df.iloc[i]`, `df.iloc[j]`); the loops only use in-range
positions, so the `none` arm is unreachable. -/
def simAt (df : List (Nat × Dict)) (fields : List String) (i j : Nat) : ℚ :=
  match df.get? i, df.get? j with
  | some a, some b => calcSim a.2 b.2 fields
  | _, _ => 0

/-- `_deduplicate_dataframe` (zingg_client.py lines 92-127):
exact-duplicate removal, then — only when `similarity_fields` is
non-empty — the pairwise near-duplicate marking, and finally
`df.drop(df.index[list(to_remove)])`, which drops the rows at the
marked positions while preserving order and labels. -/
def dedupDf (df : List (Nat × Dict)) (config : MatchConfig) :
    List (Nat × Dict) :=
  let df1 := dropDupRows df []
  if config.similarity_fields.isEmpty then df1
  else
    let n := df1.length
    let rem := markOuter (simAt df1 config.similarity_fields)
      config.similarity_threshold n (List.range n) []
    (df1.enum.filter fun p => decide (p.1 ∉ rem)).map (·.2)

/-- `merged[key] = value` on a Python dict: replace in place when the
key exists, append otherwise (insertion order is preserved). -/
def setVal (m : Dict) (k : String) (v : Val) : Dict :=
  if m.any fun kv => kv.1 == k then
    m.map fun kv => if kv.1 = k then (k, v) else kv
  else m ++ [(k, v)]

/-- `_merge_latest_wins` (zingg_client.py lines 231-238): start from
record1 and overlay every value of record2 that is neither Python
`None` nor the empty string.  In dicts obtained from DataFrame rows
no Python `None` occurs; a `NaN` value is not `None` and compares
unequal to `""`, so the only values that do not overlay are `""`. -/
def mergeLatestWins (r1 r2 : Dict) : Dict :=
  r2.foldl (fun m kv => if kv.2 ≠ some "" then setVal m kv.1 kv.2 else m) r1

/-- `_merge_first_wins` (zingg_client.py lines 240-246): start from
record1 and fill from record2 only the keys that are absent, Python
`None`, or the empty string in the merged dict so far (`None` cannot
occur in dicts obtained from DataFrame rows; a `NaN` counts as a
present value and is kept). -/
def mergeFirstWins (r1 r2 : Dict) : Dict :=
  r2.foldl (fun m kv =>
    match m.lookup kv.1 with
    | none => setVal m kv.1 kv.2
    | some v => if v = some "" then setVal m kv.1 kv.2 else m) r1

/-- `set(record1.keys()) | set(record2.keys())` — iteration order of a
Python set is unspecified; we take record1's keys then record2's new
keys.  Records are order-irrelevant mappings, and every statement
below reads the result through `lookup`. -/
def unionKeys (r1 r2 : Dict) : List String :=
  (r1.map (·.1) ++ r2.map (·.1)).foldl
    (fun a k => if k ∈ a then a else a ++ [k]) []

/-- `record.get(key, "")`. -/
def pyGet (r : Dict) (k : String) (d : Val) : Val := (r.lookup k).getD d

/-- `_merge_concatenate` (zingg_client.py lines 248-262): for every
key of either record, if both values are truthy they are rendered and
joined with " | " (with no check that they differ); otherwise the
truthy one (or record2's falsy value) is kept. -/
def concatVal (r1 r2 : Dict) (k : String) : Val :=
  let v1 := pyGet r1 k (some "")
  let v2 := pyGet r2 k (some "")
  if truthy v1 && truthy v2 then some (pyStr v1 ++ " | " ++ pyStr v2)
  else if truthy v1 then v1
  else v2

/-- The key loop of `_merge_concatenate`. -/
def mergeConcatenate (r1 r2 : Dict) : Dict :=
  (unionKeys r1 r2).map fun k => (k, concatVal r1 r2 k)

/-- The strategy dispatch of `_merge_matched_entities`
(zingg_client.py lines 209-216): an unrecognised strategy falls
through to `record1` (the `# Par défaut` branch) — no error is
raised. -/
def applyMergeStrategy (strategy : String) (r1 r2 : Dict) : Dict :=
  if strategy = "latest_wins" then mergeLatestWins r1 r2
  else if strategy = "first_wins" then mergeFirstWins r1 r2
  else if strategy = "concatenate" then mergeConcatenate r1 r2
  else r1

/-- An output record of `_merge_matched_entities`: the data dict plus
the two bookkeeping keys the code adds to merged records
(`_merged_from`, a two-element list of `record.get("id")` values —
Python `None` when there is no `id` key — and `_similarity_score`).
Pass-through records carry neither key (`none`, `none`). -/
structure MRec where
  data : Dict
  mergedFrom : Option (Option Val × Option Val) := none
  simScore : Option ℚ := none
deriving Repr

/-- `_merge_matched_entities` (zingg_client.py lines 187-229): scan
the matches in order; a match with an already-claimed position is
skipped; otherwise the two rows are fetched positionally
(`df.iloc`), merged under the strategy, and both positions are
claimed.  Finally every row of `df.iterrows()` whose *label* is not
among the claimed *positions* is appended unchanged — the source
compares `iterrows` labels with `iloc` positions. -/
def mergeStep (df : List (Nat × Dict)) (strategy : String)
    (acc : List MRec × List Nat) (m : Match) : List MRec × List Nat :=
  if m.entity_1_index ∈ acc.2 ∨ m.entity_2_index ∈ acc.2 then acc
  else
    match df.get? m.entity_1_index, df.get? m.entity_2_index with
    | some p1, some p2 =>
      let r1 := p1.2
      let r2 := p2.2
      let merged := applyMergeStrategy strategy r1 r2
      (acc.1 ++ [⟨merged, some (r1.lookup "id", r2.lookup "id"),
          some m.similarity_score⟩],
       acc.2 ++ [m.entity_1_index, m.entity_2_index])
    | _, _ => acc

/-- The match scan of `_merge_matched_entities` followed by the
pass-through of the rows whose `iterrows` label was not claimed as an
`iloc` position. -/
def mergeMatchedEntities (df : List (Nat × Dict)) (ms : List Match)
    (strategy : String) : List MRec :=
  let r := ms.foldl (mergeStep df strategy) ([], [])
  r.1 ++ (df.filter fun p => decide (p.1 ∉ r.2)).map
    fun p => (⟨p.2, none, none⟩ : MRec)

/-- `np.mean` of a non-empty score list. -/
def meanQ (l : List ℚ) : ℚ := l.sum / l.length

/-- `np.min` of a non-empty score list. -/
def listMinQ : List ℚ → ℚ
  | [] => 0
  | x :: xs => xs.foldl min x

/-- `np.max` of a non-empty score list. -/
def listMaxQ : List ℚ → ℚ
  | [] => 0
  | x :: xs => xs.foldl max x

/-- The population variance of the scores. `np.std(scores)` is the
square root of this value; the square root of a rational is not
rational, so the embedding stores the variance itself — no claim
reads the std entry, and the recoding is strictly monotone. -/
def varQ (l : List ℚ) : ℚ :=
  ((l.map fun s => (s - meanQ l) ^ 2).sum) / l.length

/-- `_calculate_confidence_scores` (zingg_client.py lines 264-279):
the empty match list yields the empty dict `{}`; otherwise the dict
holds the seven statistics entries (and no `count` entry). -/
def calcConfidenceScores (ms : List Match) : List (String × ℚ) :=
  if ms.isEmpty then []
  else
    let scores := ms.map (·.similarity_score)
    [("average_confidence", meanQ scores),
     ("min_confidence", listMinQ scores),
     ("max_confidence", listMaxQ scores),
     ("std_confidence", varQ scores),
     ("high_confidence_count",
        ((scores.filter fun s => decide (9 / 10 < s)).length : ℚ)),
     ("medium_confidence_count",
        ((scores.filter fun s => decide (7 / 10 ≤ s ∧ s ≤ 9 / 10)).length : ℚ)),
     ("low_confidence_count",
        ((scores.filter fun s => decide (s < 7 / 10)).length : ℚ))]

/-- One entry of `self.reconciliation_history`
(zingg_client.py lines 67-76).  The UUID and the wall-clock fields
are environment effects and are not modelled. -/
structure JobEntry where
  entity_type : String
  original_records : Nat
  deduplicated_records : Nat
  matched_pairs : Nat
  status : String
deriving Repr

/-- The result dict of `reconcile_entities`
(zingg_client.py lines 78-86), minus the UUID and timing fields. -/
structure RecoResult where
  original_records : Nat
  deduplicated_records : Nat
  matched_pairs : Nat
  merged_records : List MRec
  confidence_scores : List (String × ℚ)
deriving Repr

/-- `reconcile_entities` (zingg_client.py lines 28-90): the straight
pipeline — optional deduplication, matching, merging, confidence
statistics — followed unconditionally by the append of a "completed"
entry to the history.  No size or strategy check occurs anywhere on
the path.  The history is passed and returned explicitly. -/
def reconcileEntities (data : List Record) (matching_config : MatchConfig)
    (entity_type : String) (threshold : ℚ) (deduplication : Bool)
    (merge_strategy : String) (history : List JobEntry) :
    RecoResult × List JobEntry :=
  let df0 := mkDf data
  let original_records := df0.length
  let df := if deduplication then dedupDf df0 matching_config else df0
  let deduplicated_records := df.length
  let ms := findEntityMatches df matching_config threshold
  let matched_pairs := ms.length
  let merged_records := mergeMatchedEntities df ms merge_strategy
  let confidence_scores := calcConfidenceScores ms
  (⟨original_records, deduplicated_records, matched_pairs, merged_records,
      confidence_scores⟩,
   history ++ [⟨entity_type, original_records, deduplicated_records,
      matched_pairs, "completed"⟩])

/-- `find_matches` (zingg_client.py lines 281-292). -/
def findMatches (data : List Record) (matching_config : MatchConfig)
    (threshold : ℚ) : List Match :=
  findEntityMatches (mkDf data) matching_config threshold

/-- `deduplicate_data` (zingg_client.py lines 294-304);
`to_dict('records')` drops the index labels. -/
def deduplicateData (data : List Record) (config : MatchConfig) :
    List Dict :=
  (dedupDf (mkDf data) config).map (·.2)

/-! ### Helper lemmas -/

theorem lookup_map_of_mem {β : Type} (l : List String) (f : String → β)
    (k : String) (hk : k ∈ l) :
    (l.map fun x => (x, f x)).lookup k = some (f k) := by
  induction l with
  | nil => simp at hk
  | cons a t ih =>
    by_cases hka : k = a
    · subst hka
      simp [List.lookup]
    · have hmem : k ∈ t := by
        rcases List.mem_cons.mp hk with h | h
        · exact absurd h hka
        · exact h
      have hbeq : (k == a) = false := beq_eq_false_iff_ne.mpr hka
      simpa [List.lookup, hbeq] using ih hmem

theorem mkDf_length (data : List Record) : (mkDf data).length = data.length := by
  simp [mkDf]

/-! ### Claim C10 -/

/-- Claim C10: with an empty `matching_fields` list, `find_matches`
returns the empty match list without signalling any error — the
matcher exits before visiting any pair. -/
theorem find_matches_empty_fields (data : List Record)
    (config : MatchConfig) (threshold : ℚ)
    (h : config.matching_fields = []) :
    findMatches data config threshold = [] := by
  simp [findMatches, findEntityMatches, h]

/-- Witness for C10 at a concrete two-record input. -/
theorem find_matches_empty_fields_witness :
    (MatchConfig.mk [] [] (9 / 10)).matching_fields = [] ∧
      findMatches [[("name", "ab")], [("name", "ac")]]
        (MatchConfig.mk [] [] (9 / 10)) (8 / 10) = [] :=
  ⟨rfl, find_matches_empty_fields _ _ _ rfl⟩

/-! ### Claim C7 -/

/-- Claim C7 counterexample: on the empty match list the confidence
aggregation returns the empty dict, which holds no `count` entry and
no zeroed statistics entries — the claimed zeroed summary is absent. -/
theorem confidence_empty_counterexample :
    ¬ ((calcConfidenceScores []).lookup "count" = some 0 ∧
       (calcConfidenceScores []).lookup "average_confidence" = some 0 ∧
       (calcConfidenceScores []).lookup "std_confidence" = some 0) := by
  simp [calcConfidenceScores]

/-- Claim C7 (amended): on the empty match list the confidence
aggregation returns the empty summary — no entries at all — and does
not raise an error. -/
theorem confidence_empty_amended : calcConfidenceScores [] = [] := rfl

/-! ### Claim C3 -/

/-- Claim C3 counterexample: with the unknown strategy "bogus" the
merge does not fail: the matched pair is silently merged by taking
record1 unchanged (plus the provenance keys) — contradicting both
that the call fails with `InvalidConfig` and that an unknown strategy
is never silently replaced by a default behaviour. -/
theorem merge_strategy_unknown_counterexample :
    mergeMatchedEntities
        [(0, [("id", some "1"), ("name", some "a")]),
         (1, [("id", some "2"), ("name", some "b")])]
        [⟨0, 1, some "1", some "2", 1, ["name"]⟩] "bogus"
      = [⟨[("id", some "1"), ("name", some "a")],
          some (some (some "1"), some (some "2")), some 1⟩] ∧
    "bogus" ∉ (["latest_wins", "first_wins", "concatenate"] : List String) := by
  constructor
  · simp [mergeMatchedEntities, mergeStep, applyMergeStrategy, List.lookup]
  · decide

/-- Claim C3 (amended): a merge call with an unknown strategy is not
rejected; the strategy dispatch silently falls back to returning
record1 unchanged for every merged pair. -/
theorem merge_strategy_unknown_amended (strategy : String) (r1 r2 : Dict)
    (h1 : strategy ≠ "latest_wins") (h2 : strategy ≠ "first_wins")
    (h3 : strategy ≠ "concatenate") :
    applyMergeStrategy strategy r1 r2 = r1 := by
  simp [applyMergeStrategy, h1, h2, h3]

/-- Witness for the amended C3 at the concrete strategy "bogus". -/
theorem merge_strategy_unknown_amended_witness :
    ("bogus" ≠ "latest_wins" ∧ "bogus" ≠ "first_wins" ∧
      "bogus" ≠ "concatenate") ∧
    applyMergeStrategy "bogus" [("a", some "x")] [("a", some "y")]
      = [("a", some "x")] :=
  ⟨⟨by decide, by decide, by decide⟩,
    merge_strategy_unknown_amended _ _ _ (by decide) (by decide) (by decide)⟩

/-! ### Claim C6 -/

/-- Claim C6 counterexample: concatenating two records that hold the
same non-empty value "x" yields "x | x" — equal values are duplicated
around the separator, there is no check that the values differ. -/
theorem concatenate_equal_values_counterexample :
    (mergeConcatenate [("a", some "x")] [("a", some "x")]).lookup "a"
      = some (some "x | x") ∧ "x | x" ≠ "x" := by
  constructor
  · simp [mergeConcatenate, unionKeys, concatVal, pyGet, truthy, pyStr,
      List.lookup]
  · decide

/-- Claim C6 (amended): for records with plain string values (no
`NaN`) and a field present in either record, `concatenate` joins the
two values with " | " exactly when both are non-empty — equal or not —
and otherwise keeps the non-empty side (record2's value when neither
side is non-empty). -/
theorem concatenate_amended (r1 r2 : Dict) (k : String) (s1 s2 : String)
    (hk : k ∈ unionKeys r1 r2)
    (hv1 : pyGet r1 k (some "") = some s1)
    (hv2 : pyGet r2 k (some "") = some s2) :
    (mergeConcatenate r1 r2).lookup k =
      some (if s1 ≠ "" ∧ s2 ≠ "" then some (s1 ++ " | " ++ s2)
            else if s1 ≠ "" then some s1 else some s2) := by
  rw [mergeConcatenate, lookup_map_of_mem _ _ _ hk]
  by_cases h1 : s1 = "" <;> by_cases h2 : s2 = "" <;>
    simp [concatVal, hv1, hv2, truthy, pyStr, h1, h2]

/-- Witness for the amended C6 at two concrete single-field records. -/
theorem concatenate_amended_witness :
    ("a" ∈ unionKeys [("a", some "x")] [("a", some "y")] ∧
     pyGet [("a", some "x")] "a" (some "") = some "x" ∧
     pyGet [("a", some "y")] "a" (some "") = some "y") ∧
    (mergeConcatenate [("a", some "x")] [("a", some "y")]).lookup "a" =
      some (if "x" ≠ "" ∧ "y" ≠ "" then some ("x" ++ " | " ++ "y")
            else if "x" ≠ "" then some "x" else some "y") :=
  ⟨⟨by decide, by decide, by decide⟩,
    concatenate_amended _ _ _ _ _ (by decide) (by decide) (by decide)⟩

/-! ### Claim C2 -/

/-- Claim C2 (the code at the failing condition): a reconciliation
request strictly larger than the `max_batch_size` of 10000 is not
rejected — `reconcile_entities` runs the full pipeline and appends a
"completed" job entry to the history; no `BatchTooLarge` check exists
anywhere on the path. -/
theorem batch_ceiling_not_enforced (data : List Record)
    (config : MatchConfig) (et : String) (t : ℚ) (dd : Bool)
    (strat : String) (history : List JobEntry)
    (_h : 10000 < data.length) :
    ∃ e : JobEntry,
      (reconcileEntities data config et t dd strat history).2
        = history ++ [e] ∧
      e.status = "completed" ∧ e.original_records = data.length := by
  refine ⟨_, rfl, rfl, ?_⟩
  exact mkDf_length data

/-- Witness for C2 at a concrete batch of 10001 records. -/
theorem batch_ceiling_not_enforced_witness :
    10000 < (List.replicate 10001 ([("id", "x")] : Record)).length ∧
    ∃ e : JobEntry,
      (reconcileEntities (List.replicate 10001 [("id", "x")])
          (MatchConfig.mk ["id"] [] (9 / 10)) "customer" (8 / 10) false
          "latest_wins" []).2 = [] ++ [e] ∧
      e.status = "completed" ∧
      e.original_records
        = (List.replicate 10001 ([("id", "x")] : Record)).length :=
  ⟨by simp only [List.length_replicate]; omega,
    batch_ceiling_not_enforced _ _ _ _ _ _ _
      (by simp only [List.length_replicate]; omega)⟩

/-! ### Claim C9 -/

theorem fuzzCost_delete (a : Char) : fuzzCost.delete a = 1 := rfl

theorem fuzzCost_insert (b : Char) : fuzzCost.insert b = 1 := rfl

theorem fuzzCost_substitute (a b : Char) :
    fuzzCost.substitute a b = if a = b then 0 else 2 := rfl

theorem lev_fuzz_nil_right (xs : List Char) :
    levenshtein fuzzCost xs [] = xs.length := by
  induction xs with
  | nil => simp
  | cons x t ih => simp [fuzzCost_delete, ih, Nat.add_comm]

theorem lev_fuzz_nil_left (ys : List Char) :
    levenshtein fuzzCost [] ys = ys.length := by
  induction ys with
  | nil => simp
  | cons y t ih => simp [fuzzCost_insert, ih, Nat.add_comm]

/-- The cost structure of `fuzz.ratio` is symmetric, so its edit
distance is. -/
theorem lev_fuzz_symm (xs ys : List Char) :
    levenshtein fuzzCost xs ys = levenshtein fuzzCost ys xs := by
  induction xs generalizing ys with
  | nil => simp [lev_fuzz_nil_left, lev_fuzz_nil_right]
  | cons x xs ih =>
    induction ys with
    | nil =>
      simp [lev_fuzz_nil_left, lev_fuzz_nil_right, fuzzCost_delete,
        fuzzCost_insert]
    | cons y ys ih2 =>
      rw [levenshtein_cons_cons, levenshtein_cons_cons,
        ih (y :: ys), ih2, ih ys]
      simp only [fuzzCost_delete, fuzzCost_insert, fuzzCost_substitute]
      have h : (if x = y then 0 else 2) = (if y = x then 0 else 2) := by
        by_cases hxy : x = y
        · rw [if_pos hxy, if_pos hxy.symm]
        · rw [if_neg hxy, if_neg (fun hh => hxy hh.symm)]
      rw [h]
      omega

theorem fuzzRatio_symm (a b : List Char) : fuzzRatio a b = fuzzRatio b a := by
  simp only [fuzzRatio]
  rw [lev_fuzz_symm a b, Nat.add_comm a.length b.length]

theorem fieldSim_symm (r1 r2 : Dict) (f : String) :
    fieldSim r1 r2 f = fieldSim r2 r1 f := by
  unfold fieldSim
  cases r1.lookup f <;> cases r2.lookup f <;> try rfl
  simp [Bool.and_comm, fuzzRatio_symm]

/-- Claim C9: the record-similarity score is symmetric — for all rows
A, B and every field list F, `score(A, B, F) = score(B, A, F)`. -/
theorem score_symmetry (r1 r2 : Dict) (fields : List String) :
    calcSim r1 r2 fields = calcSim r2 r1 fields := by
  have hlist : fields.filterMap (fieldSim r1 r2)
      = fields.filterMap (fieldSim r2 r1) := by
    induction fields with
    | nil => rfl
    | cons f t ih => simp [List.filterMap_cons, fieldSim_symm r1 r2 f, ih]
  simp [calcSim, hlist]

/-! ### Claim C8 -/

theorem length_filterMap_mono {α β : Type} (f g : α → Option β)
    (h : ∀ a b, f a = some b → g a = some b) (l : List α) :
    (l.filterMap f).length ≤ (l.filterMap g).length := by
  induction l with
  | nil => simp
  | cons a t ih =>
    rw [List.filterMap_cons, List.filterMap_cons]
    cases hf : f a with
    | none =>
      cases hg : g a with
      | none => exact ih
      | some c => simp only [List.length_cons]; exact Nat.le_succ_of_le ih
    | some b =>
      rw [h a b hf]
      simp only [List.length_cons]
      exact Nat.succ_le_succ ih

theorem mem_filterMap_mono {α β : Type} (f g : α → Option β)
    (h : ∀ a b, f a = some b → g a = some b) (l : List α)
    (m : β) (hm : m ∈ l.filterMap f) : m ∈ l.filterMap g := by
  rw [List.mem_filterMap] at hm ⊢
  obtain ⟨a, ha, hfa⟩ := hm
  exact ⟨a, ha, h a m hfa⟩

/-- Raising the threshold can only turn an accepted pair into a
rejected one, never the converse. -/
theorem pairMatch_mono (df : List (Nat × Dict)) (config : MatchConfig)
    (t1 t2 : ℚ) (ht : t1 ≤ t2) (p : Nat × Nat) (m : Match)
    (h : pairMatch df config t2 p = some m) :
    pairMatch df config t1 p = some m := by
  unfold pairMatch at h ⊢
  cases hh1 : df.get? p.1 <;> cases hh2 : df.get? p.2 <;>
    simp only [hh1, hh2] at h ⊢
  any_goals exact Option.noConfusion h
  rename_i r1 r2
  by_cases hs : t2 ≤ calcSim r1.2 r2.2 config.matching_fields
  · rw [if_pos hs] at h
    rw [if_pos (le_trans ht hs)]
    exact h
  · rw [if_neg hs] at h
    exact absurd h (by simp)

/-- Claim C8: threshold monotonicity — for a fixed DataFrame and
configuration and thresholds `t1 ≤ t2`, every match returned at `t2`
is also returned at `t1`, and the number of accepted matches does not
increase. -/
theorem threshold_monotonicity (df : List (Nat × Dict))
    (config : MatchConfig) (t1 t2 : ℚ) (ht : t1 ≤ t2) :
    (∀ m ∈ findEntityMatches df config t2,
        m ∈ findEntityMatches df config t1) ∧
    (findEntityMatches df config t2).length
      ≤ (findEntityMatches df config t1).length := by
  unfold findEntityMatches
  by_cases hemp : config.matching_fields.isEmpty
  · simp [hemp]
  · rw [if_neg hemp, if_neg hemp]
    exact ⟨fun m hm =>
        mem_filterMap_mono _ _ (pairMatch_mono df config t1 t2 ht) _ m hm,
      length_filterMap_mono _ _ (pairMatch_mono df config t1 t2 ht) _⟩

/-! ### Claim C1 -/

/-- Claim C1 (the code at the failing input): on the batch
`[{id:1, name:"john doe"}, {id:1, name:"john doe"},
{id:2, name:"john do"}]` with similarity fields empty (exact dedup
only), match field `name` and threshold 0.8: dedup keeps pandas
labels 0 and 2, the matcher reports the pair at positions (0, 1), the
merge claims both positions, yet the pass-through loop compares the
*labels* `0` and `2` against the claimed *positions* — label 2 is not
claimed, so record id 2 is appended again.  The merge output has 2
records instead of `2 - 1 = 1`, and record id 2 appears both inside
the merged record's provenance and as a standalone record. -/
theorem merge_conservation_violated :
    ((reconcileEntities
        [[("id", "1"), ("name", "john doe")],
         [("id", "1"), ("name", "john doe")],
         [("id", "2"), ("name", "john do")]]
        (MatchConfig.mk ["name"] [] (9 / 10)) "customer" (8 / 10) true
        "latest_wins" []).1.deduplicated_records = 2) ∧
    ((reconcileEntities
        [[("id", "1"), ("name", "john doe")],
         [("id", "1"), ("name", "john doe")],
         [("id", "2"), ("name", "john do")]]
        (MatchConfig.mk ["name"] [] (9 / 10)) "customer" (8 / 10) true
        "latest_wins" []).1.matched_pairs = 1) ∧
    ((reconcileEntities
        [[("id", "1"), ("name", "john doe")],
         [("id", "1"), ("name", "john doe")],
         [("id", "2"), ("name", "john do")]]
        (MatchConfig.mk ["name"] [] (9 / 10)) "customer" (8 / 10) true
        "latest_wins" []).1.merged_records.length = 2) ∧
    (((reconcileEntities
        [[("id", "1"), ("name", "john doe")],
         [("id", "1"), ("name", "john doe")],
         [("id", "2"), ("name", "john do")]]
        (MatchConfig.mk ["name"] [] (9 / 10)) "customer" (8 / 10) true
        "latest_wins" []).1.merged_records.get? 0).bind (·.mergedFrom)
      = some (some (some "1"), some (some "2"))) ∧
    (((reconcileEntities
        [[("id", "1"), ("name", "john doe")],
         [("id", "1"), ("name", "john doe")],
         [("id", "2"), ("name", "john do")]]
        (MatchConfig.mk ["name"] [] (9 / 10)) "customer" (8 / 10) true
        "latest_wins" []).1.merged_records.get? 1).map (·.data)
      = some [("id", some "2"), ("name", some "john do")]) ∧
    (2 : Nat) ≠ 2 - 1 := by
  have hdf : mkDf [[("id", "1"), ("name", "john doe")],
      [("id", "1"), ("name", "john doe")], [("id", "2"), ("name", "john do")]]
      = [(0, [("id", some "1"), ("name", some "john doe")]),
         (1, [("id", some "1"), ("name", some "john doe")]),
         (2, [("id", some "2"), ("name", some "john do")])] := by decide
  have hdd : dropDupRows
      [(0, [("id", some "1"), ("name", some "john doe")]),
       (1, [("id", some "1"), ("name", some "john doe")]),
       (2, [("id", some "2"), ("name", some "john do")])] []
      = [(0, [("id", some "1"), ("name", some "john doe")]),
         (2, [("id", some "2"), ("name", some "john do")])] := by decide
  have hdedup : dedupDf
      [(0, [("id", some "1"), ("name", some "john doe")]),
       (1, [("id", some "1"), ("name", some "john doe")]),
       (2, [("id", some "2"), ("name", some "john do")])]
      (MatchConfig.mk ["name"] [] (9 / 10))
      = [(0, [("id", some "1"), ("name", some "john doe")]),
         (2, [("id", some "2"), ("name", some "john do")])] := by
    simp [dedupDf, hdd]
  have hm : findEntityMatches
      [(0, [("id", some "1"), ("name", some "john doe")]),
       (2, [("id", some "2"), ("name", some "john do")])]
      (MatchConfig.mk ["name"] [] (9 / 10)) (8 / 10)
      = [⟨0, 1, some "1", some "2", 93 / 100, ["name"]⟩] := by
    have hap : allPairs 2 = [(0, 1)] := by decide
    have hsim : calcSim [("id", some "1"), ("name", some "john doe")]
        [("id", some "2"), ("name", some "john do")] ["name"] = 93 / 100 := by
      have h93 : fuzzRatio ['j','o','h','n',' ','d','o','e']
          ['j','o','h','n',' ','d','o'] = 93 := by decide
      simp [calcSim, fieldSim, normVal, List.lookup, pyStr, trimL, lowerL,
        isWS, h93]
    have hle : ((8 : ℚ) / 10) ≤ 93 / 100 := by norm_num
    simp [findEntityMatches, pairMatch, entityId, List.lookup, hap, hsim, hle]
  have hmg : mergeMatchedEntities
      [(0, [("id", some "1"), ("name", some "john doe")]),
       (2, [("id", some "2"), ("name", some "john do")])]
      [⟨0, 1, some "1", some "2", 93 / 100, ["name"]⟩] "latest_wins"
      = [⟨[("id", some "2"), ("name", some "john do")],
          some (some (some "1"), some (some "2")), some (93 / 100)⟩,
         ⟨[("id", some "2"), ("name", some "john do")], none, none⟩] := by
    simp [mergeMatchedEntities, mergeStep, applyMergeStrategy, mergeLatestWins,
      setVal, List.lookup]
  refine ⟨?_, ?_, ?_, ?_, ?_, by decide⟩ <;>
    simp [reconcileEntities, hdf, hdedup, hm, hmg]

/-! ### Claim C4 -/

/-- Claim C4 (the code at the failing input): in the two-record batch
where only the second record has an `email`, the scorer does not
exclude the `email` field for the first record — the column exists,
the `NaN` cell stringifies to the non-empty string "nan", and the
field contributes `fuzz.ratio("nan", "cd")/100 = 0`.  The score is
1/2, not the 1 the claimed contract (exclude fields missing from
either record) would give. -/
theorem scorer_nan_contribution :
    calcSim
        (mkRow (dfCols [[("name", "ab")], [("name", "ab"), ("email", "cd")]])
          [("name", "ab")])
        (mkRow (dfCols [[("name", "ab")], [("name", "ab"), ("email", "cd")]])
          [("name", "ab"), ("email", "cd")])
        ["name", "email"] = 1 / 2 ∧ ((1 : ℚ) / 2 ≠ 1) := by
  have hc : dfCols [[("name", "ab")], [("name", "ab"), ("email", "cd")]]
      = ["name", "email"] := by decide
  have h1 : fuzzRatio ['a', 'b'] ['a', 'b'] = 100 := by decide
  have h2 : fuzzRatio ['n', 'a', 'n'] ['c', 'd'] = 0 := by decide
  constructor
  · rw [hc]
    simp [calcSim, fieldSim, mkRow, normVal, List.lookup, pyStr, trimL,
      lowerL, isWS, h1, h2]
  · norm_num

/-- Witness for C8 at a concrete two-record input and thresholds
1/2 ≤ 9/10. -/
theorem threshold_monotonicity_witness :
    ((1 : ℚ) / 2 ≤ 9 / 10) ∧
    (findEntityMatches (mkDf [[("name", "ab")], [("name", "ac")]])
        (MatchConfig.mk ["name"] [] (9 / 10)) (9 / 10)).length
      ≤ (findEntityMatches (mkDf [[("name", "ab")], [("name", "ac")]])
          (MatchConfig.mk ["name"] [] (9 / 10)) (1 / 2)).length :=
  ⟨by norm_num, (threshold_monotonicity _ _ _ _ (by norm_num)).2⟩

/-! ### Claim C5 -/

section DedupProof

variable (sim : Nat → Nat → ℚ) (t : ℚ)

theorem markInner_subset (i : Nat) (js : List Nat) :
    ∀ (rem : List Nat) (x : Nat), x ∈ rem → x ∈ markInner sim t i js rem := by
  induction js with
  | nil => intro rem x hx; simpa [markInner] using hx
  | cons j js ih =>
    intro rem x hx
    by_cases h1 : j ∈ rem
    · simpa [markInner, h1] using ih rem x hx
    · by_cases h2 : t ≤ sim i j
      · simp only [markInner, if_neg h1, if_pos h2]
        exact ih (j :: rem) x (List.mem_cons_of_mem _ hx)
      · simpa [markInner, h1, h2] using ih rem x hx

theorem mem_markInner (i : Nat) (js : List Nat) :
    ∀ rem x, x ∈ markInner sim t i js rem →
      x ∈ rem ∨ (x ∈ js ∧ t ≤ sim i x) := by
  induction js with
  | nil => intro rem x hx; simp [markInner] at hx; exact Or.inl hx
  | cons j js ih =>
    intro rem x hx
    by_cases h1 : j ∈ rem
    · simp only [markInner, if_pos h1] at hx
      rcases ih rem x hx with h | ⟨hj, hs⟩
      · exact Or.inl h
      · exact Or.inr ⟨List.mem_cons_of_mem _ hj, hs⟩
    · by_cases h2 : t ≤ sim i j
      · simp only [markInner, if_neg h1, if_pos h2] at hx
        rcases ih (j :: rem) x hx with h | ⟨hj, hs⟩
        · rcases List.mem_cons.mp h with rfl | h
          · exact Or.inr ⟨List.mem_cons_self _ _, h2⟩
          · exact Or.inl h
        · exact Or.inr ⟨List.mem_cons_of_mem _ hj, hs⟩
      · simp only [markInner, if_neg h1, if_neg h2] at hx
        rcases ih rem x hx with h | ⟨hj, hs⟩
        · exact Or.inl h
        · exact Or.inr ⟨List.mem_cons_of_mem _ hj, hs⟩

theorem markInner_check (i : Nat) (js : List Nat) :
    ∀ rem q, q ∈ js → q ∉ markInner sim t i js rem → sim i q < t := by
  induction js with
  | nil => intro rem q hq _; simp at hq
  | cons j js ih =>
    intro rem q hq hnot
    by_cases hqj : q = j
    · subst hqj
      by_cases h1 : q ∈ rem
      · exact absurd (markInner_subset sim t i (q :: js) rem q h1) hnot
      · by_cases h2 : t ≤ sim i q
        · refine absurd ?_ hnot
          simp only [markInner, if_neg h1, if_pos h2]
          exact markInner_subset sim t i js (q :: rem) q (List.mem_cons_self _ _)
        · exact lt_of_not_le h2
    · have hq' : q ∈ js := by
        rcases List.mem_cons.mp hq with h | h
        · exact absurd h hqj
        · exact h
      by_cases h1 : j ∈ rem
      · exact ih rem q hq' (by simpa [markInner, h1] using hnot)
      · by_cases h2 : t ≤ sim i j
        · exact ih (j :: rem) q hq'
            (by simpa [markInner, h1, h2] using hnot)
        · exact ih rem q hq' (by simpa [markInner, h1, h2] using hnot)

theorem markOuter_subset (n : Nat) (is : List Nat) :
    ∀ rem x, x ∈ rem → x ∈ markOuter sim t n is rem := by
  induction is with
  | nil => intro rem x hx; simpa [markOuter] using hx
  | cons i rest ih =>
    intro rem x hx
    by_cases h1 : i ∈ rem
    · simpa [markOuter, h1] using ih rem x hx
    · simp only [markOuter, if_neg h1]
      exact ih _ x (markInner_subset sim t i _ rem x hx)

theorem markOuter_not_mem (n : Nat) (is : List Nat) :
    ∀ rem p, p ∉ rem → (∀ i ∈ is, p ≤ i) →
      p ∉ markOuter sim t n is rem := by
  induction is with
  | nil => intro rem p hp _; simpa [markOuter] using hp
  | cons i rest ih =>
    intro rem p hp hlb
    by_cases h1 : i ∈ rem
    · simpa [markOuter, h1] using
        ih rem p hp fun i' hi' => hlb i' (List.mem_cons_of_mem _ hi')
    · simp only [markOuter, if_neg h1]
      refine ih _ p ?_ fun i' hi' => hlb i' (List.mem_cons_of_mem _ hi')
      intro hmem
      rcases mem_markInner sim t i _ rem p hmem with h | ⟨hj, _⟩
      · exact hp h
      · have h1' := (List.mem_range'_1.mp hj).1
        have h2' := hlb i (List.mem_cons_self _ _)
        omega

theorem markOuter_pair (n : Nat) (is : List Nat) :
    ∀ rem p q, p ∈ is → p ∉ markOuter sim t n is rem →
      q ∉ markOuter sim t n is rem →
      q ∈ List.range' (p + 1) (n - (p + 1)) → sim p q < t := by
  induction is with
  | nil => intro rem p q hp _ _ _; simp at hp
  | cons i rest ih =>
    intro rem p q hp hpn hqn hq
    by_cases h1 : i ∈ rem
    · simp only [markOuter, if_pos h1] at hpn hqn
      rcases List.mem_cons.mp hp with rfl | hp'
      · exact absurd (markOuter_subset sim t n rest rem p h1) hpn
      · exact ih rem p q hp' hpn hqn hq
    · simp only [markOuter, if_neg h1] at hpn hqn
      rcases List.mem_cons.mp hp with rfl | hp'
      · have hq' : q ∉ markInner sim t p
            (List.range' (p + 1) (n - (p + 1))) rem :=
          fun hmem => hqn (markOuter_subset sim t n rest _ q hmem)
        exact markInner_check sim t p _ rem q hq hq'
      · exact ih _ p q hp' hpn hqn hq

theorem mem_markOuter_range' (n : Nat) :
    ∀ (k a : Nat), n - a = k → ∀ rem x,
      x ∈ markOuter sim t n (List.range' a (n - a)) rem →
      x ∈ rem ∨ ∃ i, i ∈ List.range' a (n - a) ∧
        i ∉ markOuter sim t n (List.range' a (n - a)) rem ∧
        i < x ∧ t ≤ sim i x := by
  intro k
  induction k with
  | zero =>
    intro a ha rem x hx
    rw [ha] at hx ⊢
    simp only [List.range'] at hx ⊢
    exact Or.inl (by simpa [markOuter] using hx)
  | succ k ihk =>
    intro a ha rem x hx
    have haa : n - (a + 1) = k := by omega
    have hshape : List.range' a (n - a)
        = a :: List.range' (a + 1) (n - (a + 1)) := by
      rw [ha, haa, List.range'_succ]
    rw [hshape] at hx ⊢
    by_cases h1 : a ∈ rem
    · simp only [markOuter, if_pos h1] at hx ⊢
      rcases ihk (a + 1) haa rem x hx with h | ⟨i, hi, hin, hix, hs⟩
      · exact Or.inl h
      · exact Or.inr ⟨i, List.mem_cons_of_mem _ hi, hin, hix, hs⟩
    · simp only [markOuter, if_neg h1] at hx ⊢
      rcases ihk (a + 1) haa _ x hx with h | ⟨i, hi, hin, hix, hs⟩
      · rcases mem_markInner sim t a _ rem x h with h' | ⟨hj, hs⟩
        · exact Or.inl h'
        · right
          have hanotin : a ∉ markInner sim t a
              (List.range' (a + 1) (n - (a + 1))) rem := by
            intro hmem
            rcases mem_markInner sim t a _ rem a hmem with h' | ⟨hj', _⟩
            · exact h1 h'
            · have := (List.mem_range'_1.mp hj').1
              omega
          have hafin : a ∉ markOuter sim t n
              (List.range' (a + 1) (n - (a + 1)))
              (markInner sim t a (List.range' (a + 1) (n - (a + 1))) rem) :=
            markOuter_not_mem sim t n _ _ a hanotin
              fun i' hi' => by
                have := (List.mem_range'_1.mp hi').1
                omega
          refine ⟨a, List.mem_cons_self _ _, hafin, ?_, hs⟩
          have := (List.mem_range'_1.mp hj).1
          omega
      · exact Or.inr ⟨i, List.mem_cons_of_mem _ hi, hin, hix, hs⟩

end DedupProof


theorem enumFrom_filter_map_sublist {α : Type} (q : Nat → Prop)
    [DecidablePred q] :
    ∀ (l : List α) (m : Nat),
      List.Sublist
        (((List.enumFrom m l).filter fun p => decide (q p.1)).map (·.2)) l := by
  intro l
  induction l with
  | nil => intro m; simp
  | cons a tl ih =>
    intro m
    rw [List.enumFrom_cons, List.filter_cons]
    by_cases hq : q m
    · simp only [hq, decide_True]
      exact (ih (m + 1)).cons₂ a
    · simp only [hq, decide_False]
      exact (ih (m + 1)).cons a

theorem dropDupRows_sublist :
    ∀ (df : List (Nat × Dict)) (seen : List Dict),
      List.Sublist (dropDupRows df seen) df := by
  intro df
  induction df with
  | nil => intro seen; simp [dropDupRows]
  | cons a tl ih =>
    intro seen
    obtain ⟨l, r⟩ := a
    by_cases h : r ∈ seen
    · simp only [dropDupRows, if_pos h]
      exact (ih seen).cons _
    · simp only [dropDupRows, if_neg h]
      exact (ih _).cons₂ _

theorem dedupDf_eq (df : List (Nat × Dict)) (config : MatchConfig)
    (hne : config.similarity_fields ≠ []) :
    dedupDf df config =
      ((dropDupRows df []).enum.filter fun p => decide (p.1 ∉
        markOuter (simAt (dropDupRows df []) config.similarity_fields)
          config.similarity_threshold (dropDupRows df []).length
          (List.range (dropDupRows df []).length) [])).map (·.2) := by
  have hne' : config.similarity_fields.isEmpty = false := by
    simpa [List.isEmpty_iff] using hne
  simp [dedupDf, hne']


/-- Claim C5: for every record list and every config with a non-empty
similarity-field list, the deduplication output (i) is a sublist of
the input rows — surviving records keep their original relative
order, (ii) contains no two records whose pairwise similarity over
the configured fields reaches the threshold, and (iii) every row of
the exact-deduplicated frame that is dropped is dropped pairwise: it
has an *earlier surviving* row whose similarity with it reaches the
threshold (no transitive clustering — removal is always justified by
an earlier-indexed survivor, never through a chain of removed
records). -/
theorem dedup_postcondition (data : List Record) (config : MatchConfig)
    (hf : config.similarity_fields ≠ []) :
    List.Sublist (deduplicateData data config) ((mkDf data).map (·.2)) ∧
    List.Pairwise (fun r1 r2 =>
      calcSim r1 r2 config.similarity_fields < config.similarity_threshold)
      (deduplicateData data config) ∧
    ∀ q lr, (dropDupRows (mkDf data) []).get? q = some lr →
      lr.2 ∉ deduplicateData data config →
      ∃ p ls, p < q ∧ (dropDupRows (mkDf data) []).get? p = some ls ∧
        ls.2 ∈ deduplicateData data config ∧
        config.similarity_threshold
          ≤ calcSim ls.2 lr.2 config.similarity_fields := by
  classical
  set df1 := dropDupRows (mkDf data) [] with hdf1
  set flds := config.similarity_fields with hflds
  set t := config.similarity_threshold with ht
  set n := df1.length with hn
  set sim := simAt df1 flds with hsim
  set rem := markOuter sim t n (List.range n) [] with hrem
  have hrr : List.range n = List.range' 0 (n - 0) := by
    rw [Nat.sub_zero, List.range_eq_range']
  have hout : deduplicateData data config =
      ((df1.enum.filter fun p => decide (p.1 ∉ rem)).map (·.2)).map (·.2) := by
    rw [deduplicateData, dedupDf_eq _ _ hf]
  have hsurv : ∀ p ls, df1.get? p = some ls → p ∉ rem →
      ls.2 ∈ deduplicateData data config := by
    intro p ls hget hnot
    rw [hout]
    refine List.mem_map.mpr ⟨ls, ?_, rfl⟩
    refine List.mem_map.mpr ⟨(p, ls), ?_, rfl⟩
    refine List.mem_filter.mpr ⟨?_, by simpa using hnot⟩
    exact List.mem_enum_iff_getElem?.mpr (by simpa using hget)
  refine ⟨?_, ?_, ?_⟩
  · rw [hout]
    have h1 : List.Sublist
        ((df1.enum.filter fun p => decide (p.1 ∉ rem)).map (·.2)) df1 := by
      simpa [List.enum] using
        enumFrom_filter_map_sublist (fun i => i ∉ rem) df1 0
    have h2 := dropDupRows_sublist (mkDf data) []
    exact (h1.map (·.2)).trans (h2.map (·.2))
  · rw [hout]
    rw [List.pairwise_map, List.pairwise_map]
    have hp0 : df1.enum.Pairwise fun x y => x.1 < y.1 := by
      rw [List.pairwise_iff_getElem]
      intro i j hi hj hij
      simp only [List.getElem_enum]
      simpa using hij
    refine List.Pairwise.imp_of_mem ?_ (hp0.filter _)
    intro x y hx hy hxy
    obtain ⟨hxe, hxp⟩ := List.mem_filter.mp hx
    obtain ⟨hye, hyp⟩ := List.mem_filter.mp hy
    have hxg : df1.get? x.1 = some x.2 := by
      simpa using List.mem_enum_iff_getElem?.mp hxe
    have hyg : df1.get? y.1 = some y.2 := by
      simpa using List.mem_enum_iff_getElem?.mp hye
    have hxr : x.1 ∉ rem := by simpa using hxp
    have hyr : y.1 ∉ rem := by simpa using hyp
    have hxl : x.1 < n := by
      obtain ⟨h, _⟩ := List.get?_eq_some.mp hxg
      exact h
    have hyl : y.1 < n := by
      obtain ⟨h, _⟩ := List.get?_eq_some.mp hyg
      exact h
    have hsimlt := markOuter_pair sim t n (List.range n) [] x.1 y.1
      (List.mem_range.mpr hxl) (hrem ▸ hxr) (hrem ▸ hyr)
      (by rw [List.mem_range'_1]; omega)
    have hs : sim x.1 y.1 = calcSim x.2.2 y.2.2 flds := by
      have hxg2 : df1[x.1]? = some x.2 := by
        rw [← List.get?_eq_getElem?]
        exact hxg
      have hyg2 : df1[y.1]? = some y.2 := by
        rw [← List.get?_eq_getElem?]
        exact hyg
      rw [hsim]
      simp [simAt, hxg2, hyg2]
    rwa [hs] at hsimlt
  · intro q lr hget hnot
    by_cases hq : q ∈ rem
    · have hq' : q ∈ markOuter sim t n (List.range' 0 (n - 0)) [] := by
        rw [← hrr]
        exact hrem ▸ hq
      rcases mem_markOuter_range' sim t n n 0 (by omega) [] q hq'
        with h | ⟨p, hp, hpn, hpq, hs⟩
      · simp at h
      · have hplt : p < n := by
          have := List.mem_range'_1.mp hp
          omega
        obtain ⟨ls, hls⟩ : ∃ ls, df1.get? p = some ls :=
          ⟨df1.get ⟨p, hplt⟩, List.get?_eq_get hplt⟩
        have hpnotrem : p ∉ rem := by
          rw [hrem]
          intro hc
          apply hpn
          rw [← hrr]
          exact hc
        refine ⟨p, ls, hpq, hls, hsurv p ls hls hpnotrem, ?_⟩
        have hseq : sim p q = calcSim ls.2 lr.2 flds := by
          have hls2 : df1[p]? = some ls := by
            rw [← List.get?_eq_getElem?]
            exact hls
          have hget2 : df1[q]? = some lr := by
            rw [← List.get?_eq_getElem?]
            exact hget
          rw [hsim]
          simp [simAt, hls2, hget2]
        rwa [hseq] at hs
    · exact absurd (hsurv q lr hget hq) hnot

/-- Witness for C5 at a concrete two-record input with a non-empty
similarity-field list. -/
theorem dedup_postcondition_witness :
    (MatchConfig.mk [] ["name"] (9 / 10)).similarity_fields ≠ [] ∧
    List.Pairwise (fun r1 r2 =>
      calcSim r1 r2 (MatchConfig.mk [] ["name"] (9 / 10)).similarity_fields
        < (MatchConfig.mk [] ["name"] (9 / 10)).similarity_threshold)
      (deduplicateData [[("name", "ab")], [("name", "ab")]]
        (MatchConfig.mk [] ["name"] (9 / 10))) :=
  ⟨by decide, (dedup_postcondition _ _ (by decide)).2.1⟩

end Reco

